import Mathlib

/-!
Shallow embedding of the nucleus BED and FASTQ readers
(src/nucleus/io/bed_reader.cc, src/nucleus/io/fastq_reader.cc).

Files are modelled at the line level: a file is its `List String` of text
lines (line terminators already stripped, as both htslib's `hts_getline`
and tensorflow's `BufferedInputStream::ReadLine` strip them).  Reading a
line from an exhausted stream yields `OutOfRange`, matching both line
sources.  tensorflow `Status` objects are modelled by `Except Err` /
`Option Err` with the tensorflow error code and message.
-/

namespace Nucleus

/-- tensorflow error codes used by the two readers. -/
inductive ErrCode where
  | outOfRange
  | dataLoss
  | unknown
  | notFound
  | invalidArgument
  | failedPrecondition
  | internalErr
  deriving DecidableEq, Repr

/-- A tensorflow `Status` error: code plus message. -/
structure Err where
  code : ErrCode
  msg : String
  deriving DecidableEq, Repr

def exceptDecEq {ε α : Type} [DecidableEq ε] [DecidableEq α] :
    DecidableEq (Except ε α)
  | .error e, .error e' =>
    if h : e = e' then isTrue (by rw [h])
    else isFalse (by intro hc; cases hc; exact h rfl)
  | .error _, .ok _ => isFalse (by intro hc; cases hc)
  | .ok _, .error _ => isFalse (by intro hc; cases hc)
  | .ok a, .ok a' =>
    if h : a = a' then isTrue (by rw [h])
    else isFalse (by intro hc; cases hc; exact h rfl)

instance {ε α : Type} [DecidableEq ε] [DecidableEq α] :
    DecidableEq (Except ε α) := exceptDecEq

/-- Outcome of one `Next` call on an iterable: a record, clean end of
iteration (`Next` returned `false`), or an error status. -/
inductive NextOutcome (α : Type) where
  | ok (r : α)
  | eof
  | err (e : Err)
  deriving DecidableEq, Repr

/-- `true` iff the outcome is an error status. -/
def NextOutcome.isErr {α : Type} : NextOutcome α → Bool
  | .err _ => true
  | _ => false

/-! ### String primitives

The C++ code works on `std::string`; we model the needed primitives over
`String.data : List Char` (the sources in the claims are ASCII-only, so
byte indexing and char indexing agree). -/

/-- `absl::StrSplit(line, '\t')`: split at every tab, keeping empty
pieces; the empty string yields one empty token. -/
def splitTabAux : List Char → List Char → List (List Char)
  | [], acc => [acc.reverse]
  | c :: cs, acc =>
    if c = '\t' then acc.reverse :: splitTabAux cs []
    else splitTabAux cs (c :: acc)

def splitTab (s : String) : List String :=
  (splitTabAux s.data []).map String.mk

/-- `absl::StartsWith(line, "#")` (BED_COMMENT_PREFIX). -/
def startsWithHash (s : String) : Bool :=
  match s.data with
  | [] => false
  | c :: _ => c = '#'

/-- Token `i` of the tab-split line (guarded by count checks in the
parser, so the default is never the value actually used). -/
def bedTok (line : String) (i : Nat) : String :=
  (splitTab line).getD i ""

/-! ### Permissive numeric parsing

`tf::strings::safe_strto64` / `safe_strto32` / `safe_strtod` are
tensorflow primitives, not part of this repository.  Modelled from the
spec: "Numeric parsing policy: permissive — on parse failure the field is
recorded as zero (preserves observed behavior of the source system's
permissive safe_strto* primitives)."  `none` is a parse failure; the
reader records `getD 0` into the field. -/

def skipSpaces : List Char → List Char
  | [] => []
  | c :: cs => if c = ' ' then skipSpaces cs else c :: cs

def digitsVal (ds : List Char) : Nat :=
  ds.foldl (fun a c => a * 10 + (c.toNat - 48)) 0

/-- Modelled from the spec: permissive signed decimal parse with the
two's-complement bounds of a `bits`-wide integer; failure is `none`. -/
def safe_strto_signed (bits : Nat) (s : String) : Option Int :=
  let cs := skipSpaces s.data
  let p : Bool × List Char :=
    match cs with
    | '-' :: rest => (true, rest)
    | _ => (false, cs)
  let digs := p.2.takeWhile Char.isDigit
  let cs2 := p.2.dropWhile Char.isDigit
  if digs = [] then none
  else if skipSpaces cs2 ≠ [] then none
  else
    let v := digitsVal digs
    if p.1 then
      if v ≤ 2 ^ (bits - 1) then some (-(v : Int)) else none
    else
      if v < 2 ^ (bits - 1) then some (v : Int) else none

/-- Modelled from the spec: `tf::strings::safe_strto64`. -/
def safe_strto64 (s : String) : Option Int := safe_strto_signed 64 s

/-- Modelled from the spec: `tf::strings::safe_strto32`. -/
def safe_strto32 (s : String) : Option Int := safe_strto_signed 32 s

/-- Modelled from the spec: `tf::strings::safe_strtod`; a plain decimal
literal with optional sign and fraction (exact rational stand-in for the
double value; no claim depends on the successfully parsed value). -/
def safe_strtod (s : String) : Option Rat :=
  let cs := skipSpaces s.data
  let p : Bool × List Char :=
    match cs with
    | '-' :: rest => (true, rest)
    | '+' :: rest => (false, rest)
    | _ => (false, cs)
  let ip := p.2.takeWhile Char.isDigit
  let cs2 := p.2.dropWhile Char.isDigit
  let q : List Char × List Char :=
    match cs2 with
    | '.' :: rest => (rest.takeWhile Char.isDigit, rest.dropWhile Char.isDigit)
    | _ => ([], cs2)
  if ip = [] ∧ q.1 = [] then none
  else if skipSpaces q.2 ≠ [] then none
  else
    let mag : Rat := (digitsVal ip : Rat) + (digitsVal q.1 : Rat) / (10 : Rat) ^ q.1.length
    some (if p.1 then -mag else mag)

/-- Value recorded into an int64 proto field: parse result or zero. -/
def strto64OrZero (s : String) : Int := (safe_strto64 s).getD 0

/-- Value recorded into an int32 proto field: parse result or zero. -/
def strto32OrZero (s : String) : Int := (safe_strto32 s).getD 0

/-- Value recorded into the double `score` field: parse result or zero. -/
def strtodOrZero (s : String) : Rat := (safe_strtod s).getD 0

/-! ### BED data model (nucleus/protos/bed.pb.h) -/

/-- `nucleus::genomics::v1::BedRecord::Strand`.  `NO_STRAND` is the proto
zero value, hence the value of a cleared/unset field. -/
inductive Strand where
  | NO_STRAND
  | FORWARD_STRAND
  | REVERSE_STRAND
  deriving DecidableEq, Repr

/-- `nucleus::genomics::v1::BedRecord`; the defaults are the proto3
cleared values (`record->Clear()`). -/
structure BedRecord where
  reference_name : String := ""
  start : Int := 0
  end_ : Int := 0
  name : String := ""
  score : Rat := 0
  strand : Strand := .NO_STRAND
  thick_start : Int := 0
  thick_end : Int := 0
  item_rgb : String := ""
  block_count : Int := 0
  block_sizes : String := ""
  block_starts : String := ""
  deriving DecidableEq, Repr

/-- `ValidNumBedFields` (bed_reader.cc:55). -/
def validNumBedFields (n : Nat) : Bool :=
  n = 3 || n = 4 || n = 5 || n = 6 || n = 8 || n = 9 || n = 12

/-- The number of fields actually parsed:
`desiredNumFields == 0 ? numTokens : std::min(numTokens, desiredNumFields)`
(bed_reader.cc:96). -/
def bedNumFields (desired numTokens : Nat) : Nat :=
  if desired = 0 then numTokens else min numTokens desired

/-- `NextNonCommentLine` (bed_reader.cc:61): read lines until one does
not start with `#`; exhaustion while skipping yields `OutOfRange`.
(The `ret < -1` low-level htslib failure branch, which yields `DataLoss`,
is an I/O fault with no counterpart in the line-content model.) -/
def nextNonCommentLine : List String → Except Err (String × List String)
  | [] => .error ⟨.outOfRange, ""⟩
  | l :: ls =>
    if startsWithHash l then nextNonCommentLine ls
    else .ok (l, ls)

/-- The strand glyph mapping of `ConvertToPb` (bed_reader.cc:110):
`"+" → FORWARD_STRAND`, `"-" → REVERSE_STRAND`, `"." → NO_STRAND`;
defined only under `bedStrandOk`. -/
def bedStrandOf (t : String) : Strand :=
  if t = "+" then .FORWARD_STRAND
  else if t = "-" then .REVERSE_STRAND
  else .NO_STRAND

/-- `true` iff the strand token is one of the three accepted literals;
anything else hits the `else` early return of bed_reader.cc:117. -/
def bedStrandOk (t : String) : Bool :=
  t = "+" || t = "-" || t = "."

/-- BED `ConvertToPb` (bed_reader.cc:84): returns the `*numTokensSeen`
out-parameter and the status-or-record.  Translated to a single record
literal: each field carries exactly the `numFields` guard under which the
source sets it (`> 3` name, `> 4` score, `> 5` strand, `> 7` thick
bounds, `> 8` item_rgb, `≥ 12` blocks), unset fields keeping the cleared
proto value; the strand early return (the only failure after the field
count check) is hoisted in front, which is behaviour-equivalent because
the C++ early return makes the caller discard the partially filled
record. -/
def bedConvertToPb (line : String) (desiredNumFields : Nat) :
    Nat × Except Err BedRecord :=
  let tokens := splitTab line
  let numTokens := tokens.length
  let numFields := bedNumFields desiredNumFields numTokens
  (numTokens,
    if validNumBedFields numTokens then
      if numFields > 5 ∧ ¬ bedStrandOk (tokens.getD 5 "") then
        .error ⟨.unknown, "Invalid BED record with unknown strand"⟩
      else
        .ok { reference_name := tokens.getD 0 ""
              start := strto64OrZero (tokens.getD 1 "")
              end_ := strto64OrZero (tokens.getD 2 "")
              name := if numFields > 3 then tokens.getD 3 "" else ""
              score := if numFields > 4 then strtodOrZero (tokens.getD 4 "") else 0
              strand := if numFields > 5 then bedStrandOf (tokens.getD 5 "")
                else .NO_STRAND
              thick_start := if numFields > 7 then strto64OrZero (tokens.getD 6 "")
                else 0
              thick_end := if numFields > 7 then strto64OrZero (tokens.getD 7 "")
                else 0
              item_rgb := if numFields > 8 then tokens.getD 8 "" else ""
              block_count := if numFields ≥ 12 then strto32OrZero (tokens.getD 9 "")
                else 0
              block_sizes := if numFields ≥ 12 then tokens.getD 10 "" else ""
              block_starts := if numFields ≥ 12 then tokens.getD 11 "" else "" }
    else .error ⟨.unknown, "BED record has invalid number of fields"⟩)

/-- `BedReader::Validate` (bed_reader.cc:219). -/
def bedValidate (headerNumFields numTokens : Nat) : Option Err :=
  if headerNumFields ≠ numTokens then
    some ⟨.unknown, "Invalid BED with varying number of fields in file"⟩
  else none

/-- `BedFullFileIterable::Next` (bed_reader.cc:235) on the line stream of
an open reader: outcome plus the remaining lines. -/
def bedNext (headerNumFields optNumFields : Nat) (lines : List String) :
    NextOutcome BedRecord × List String :=
  match nextNonCommentLine lines with
  | .error e => if e.code = .outOfRange then (.eof, []) else (.err e, [])
  | .ok (line, rest) =>
    match (bedConvertToPb line optNumFields).2 with
    | .error e => (.err e, rest)
    | .ok r =>
      match bedValidate headerNumFields (bedConvertToPb line optNumFields).1 with
      | some e => (.err e, rest)
      | none => (.ok r, rest)

/-- `GetNumFields` (bed_reader.cc:143): peek the first non-comment line
and count its tab-separated tokens.  `openable` models whether
`hts_open_x` succeeds on the path. -/
def getNumFields (openable : Bool) (lines : List String) : Except Err Nat :=
  if openable then
    match nextNonCommentLine lines with
    | .error e => .error e
    | .ok (line, _) => .ok (splitTab line).length
  else .error ⟨.notFound, "Could not open"⟩

/-- `BedReader` state: `fpOpen` models `fp_ != nullptr`. -/
structure BedReaderSt where
  fpOpen : Bool
  headerNumFields : Nat
  optNumFields : Nat
  lines : List String
  deriving DecidableEq, Repr

/-- `BedReader::FromFile` (bed_reader.cc:173). -/
def bedFromFile (openable : Bool) (lines : List String) (optNumFields : Nat) :
    Except Err BedReaderSt :=
  match getNumFields openable lines with
  | .error e => .error e
  | .ok numFieldsInBed =>
    if optNumFields ≠ 0 ∧
        (optNumFields > numFieldsInBed ∨ ¬ validNumBedFields optNumFields) then
      .error ⟨.invalidArgument, "Invalid requested number of fields to parse"⟩
    else if openable then .ok ⟨true, numFieldsInBed, optNumFields, lines⟩
    else .error ⟨.notFound, "Could not open"⟩

/-- `BedReader::Close` (bed_reader.cc:206).  `htsCloseOk` models the
return code of `hts_close`. -/
def bedClose (htsCloseOk : Bool) (st : BedReaderSt) : Option Err × BedReaderSt :=
  if st.fpOpen then
    let st' := { st with fpOpen := false }
    if htsCloseOk then (none, st')
    else (some ⟨.internalErr, "hts_close() failed with return code "⟩, st')
  else (some ⟨.failedPrecondition, "BedReader already closed"⟩, st)

/-- `BedReader::Iterate` (bed_reader.cc:227). -/
def bedIterate (st : BedReaderSt) : Except Err Unit :=
  if st.fpOpen then .ok ()
  else .error ⟨.failedPrecondition, "Cannot Iterate a closed BedReader."⟩

/-- Repeated `Next` calls of one full iteration, fuel-bounded (each
productive step consumes at least one line, so `lines.length + 1` fuel is
always enough); the trailing element is the terminal outcome. -/
def bedRunFuel (headerNumFields optNumFields : Nat) :
    Nat → List String → List (NextOutcome BedRecord)
  | 0, _ => []
  | fuel + 1, lines =>
    match bedNext headerNumFields optNumFields lines with
    | (.ok r, rest) => .ok r :: bedRunFuel headerNumFields optNumFields fuel rest
    | (.eof, _) => [.eof]
    | (.err e, _) => [.err e]

/-- The whole record stream (with terminal outcome) of one iteration. -/
def bedRun (headerNumFields optNumFields : Nat) (lines : List String) :
    List (NextOutcome BedRecord) :=
  bedRunFuel headerNumFields optNumFields (lines.length + 1) lines

/-- Open a BED file and produce the full per-call outcome sequence of
`iterate()` — the observable behaviour of the reader on a file. -/
def bedOpenAndRun (openable : Bool) (optNumFields : Nat) (lines : List String) :
    Except Err (List (NextOutcome BedRecord)) :=
  match bedFromFile openable lines optNumFields with
  | .error e => .error e
  | .ok st => .ok (bedRun st.headerNumFields st.optNumFields st.lines)

/-! ### FASTQ data model (nucleus/protos/fastq.pb.h) -/

/-- `nucleus::genomics::v1::FastqRecord`; defaults are the proto3 cleared
values. -/
structure FastqRecord where
  id : String := ""
  description : String := ""
  sequence : String := ""
  quality : String := ""
  deriving DecidableEq, Repr

/-- `header.find(" ")`: index of the first space character. -/
def findSpaceIdx : List Char → Option Nat
  | [] => none
  | c :: cs => if c = ' ' then some 0 else (findSpaceIdx cs).map (· + 1)

/-- FASTQ `ConvertToPb` (fastq_reader.cc:53).  The C++ guard
`!header.length() || header[0] != '@' || sequence.length() != quality.length()`
is stated with `List.head?`; `substr(1, spaceix - 1)` is
`(drop 1).take (spaceix - 1)` and `substr(spaceix + 1)` is
`drop (spaceix + 1)`.  The `pad` line is accepted unexamined. -/
def fastqConvertToPb (header sequence pad quality : String) :
    Except Err FastqRecord :=
  if header.data = [] ∨ header.data.head? ≠ some '@'
      ∨ sequence.data.length ≠ quality.data.length then
    .error ⟨.dataLoss, "Failed to parse FASTQ record"⟩
  else
    match findSpaceIdx header.data with
    | none =>
      .ok { id := String.mk (header.data.drop 1)
            sequence := sequence, quality := quality }
    | some spaceix =>
      .ok { id := String.mk ((header.data.drop 1).take (spaceix - 1))
            description := String.mk (header.data.drop (spaceix + 1))
            sequence := sequence, quality := quality }

/-- `FastqReader::Next` (fastq_reader.cc:135): read four lines, returning
the first `ReadLine` error (`OutOfRange` at stream end) as soon as it
occurs, together with the remaining stream. -/
def fastqReaderNext (lines : List String) :
    Except Err (String × String × String × String) × List String :=
  match lines with
  | h :: s :: p :: q :: rest => (.ok (h, s, p, q), rest)
  | _ => (.error ⟨.outOfRange, ""⟩, [])

/-- `FastqFullFileIterable::Next` (fastq_reader.cc:161) on the line
stream of an open reader. -/
def fastqIterNext (lines : List String) : NextOutcome FastqRecord × List String :=
  match fastqReaderNext lines with
  | (.error e, rest) => if e.code = .outOfRange then (.eof, rest) else (.err e, rest)
  | (.ok (h, s, p, q), rest) =>
    match fastqConvertToPb h s p q with
    | .error e => (.err e, rest)
    | .ok r => (.ok r, rest)

/-- `FastqReader` state: `srcOpen` models `src_ != nullptr`. -/
structure FastqReaderSt where
  srcOpen : Bool
  lines : List String
  deriving DecidableEq, Repr

/-- `FastqReader::Close` (fastq_reader.cc:124): releases the streams and
always returns `Status::OK()`, whether or not already closed. -/
def fastqClose (st : FastqReaderSt) : Option Err × FastqReaderSt :=
  (none, { st with srcOpen := false })

/-- `FastqReader::Iterate` (fastq_reader.cc:152). -/
def fastqIterate (st : FastqReaderSt) : Except Err Unit :=
  if st.srcOpen then .ok ()
  else .error ⟨.failedPrecondition, "Cannot Iterate a closed FastqReader."⟩

/-- A line the BED reader does not skip. -/
def notComment (l : String) : Bool := !startsWithHash l

/-! ## Theorems -/

/-- C10: two four-line FASTQ units differing only in the pad (third)
line give identical `next()` outcomes, identical records and identical
remaining streams: `ConvertToPb` never examines the pad line. -/
theorem fastq_pad_line_irrelevant (h s p p' q : String) (rest : List String) :
    fastqIterNext (h :: s :: p :: q :: rest) =
      fastqIterNext (h :: s :: p' :: q :: rest) := rfl

/-- C2: a four-line FASTQ unit is rejected with `DataLoss` exactly when
the header is empty, its first character is not `@`, or the sequence and
quality lengths differ; every produced record has equal-length sequence
and quality and its id is taken from the header after the `@` (up to the
first space, which starts the description). -/
theorem fastq_record_grammar (h s p q : String) :
    ((h.data = [] ∨ h.data.head? ≠ some '@' ∨ s.data.length ≠ q.data.length) →
      fastqConvertToPb h s p q = .error ⟨.dataLoss, "Failed to parse FASTQ record"⟩)
    ∧ (¬ (h.data = [] ∨ h.data.head? ≠ some '@' ∨ s.data.length ≠ q.data.length) →
      ∃ r, fastqConvertToPb h s p q = .ok r)
    ∧ (∀ r, fastqConvertToPb h s p q = .ok r →
      r.sequence.data.length = r.quality.data.length
      ∧ r.sequence = s ∧ r.quality = q
      ∧ h.data.head? = some '@'
      ∧ (match findSpaceIdx h.data with
         | none => r.id.data = h.data.drop 1 ∧ r.description = ""
         | some i => r.id.data = (h.data.drop 1).take (i - 1)
                     ∧ r.description.data = h.data.drop (i + 1)))
    ∧ (∀ rest r st, fastqIterNext (h :: s :: p :: q :: rest) = (.ok r, st) →
      r.sequence.data.length = r.quality.data.length) := by
  have hok : ∀ r, fastqConvertToPb h s p q = .ok r →
      r.sequence.data.length = r.quality.data.length
      ∧ r.sequence = s ∧ r.quality = q
      ∧ h.data.head? = some '@'
      ∧ (match findSpaceIdx h.data with
         | none => r.id.data = h.data.drop 1 ∧ r.description = ""
         | some i => r.id.data = (h.data.drop 1).take (i - 1)
                     ∧ r.description.data = h.data.drop (i + 1)) := by
    intro r hr
    by_cases hc : h.data = [] ∨ h.data.head? ≠ some '@' ∨ s.data.length ≠ q.data.length
    · simp only [fastqConvertToPb, if_pos hc] at hr
      cases hr
    · simp only [fastqConvertToPb, if_neg hc] at hr
      push_neg at hc
      obtain ⟨-, hat, hlen⟩ := hc
      cases hsp : findSpaceIdx h.data with
      | none =>
        rw [hsp] at hr
        cases hr
        exact ⟨hlen, rfl, rfl, hat, ⟨rfl, rfl⟩⟩
      | some i =>
        rw [hsp] at hr
        cases hr
        exact ⟨hlen, rfl, rfl, hat, ⟨rfl, rfl⟩⟩
  refine ⟨?_, ?_, hok, ?_⟩
  · intro hc
    simp only [fastqConvertToPb, if_pos hc]
  · intro hc
    simp only [fastqConvertToPb, if_neg hc]
    cases findSpaceIdx h.data <;> exact ⟨_, rfl⟩
  · intro rest r st hr
    simp only [fastqIterNext, fastqReaderNext] at hr
    cases hcv : fastqConvertToPb h s p q with
    | error e => rw [hcv] at hr; cases hr
    | ok r' =>
      rw [hcv] at hr
      cases hr
      exact (hok _ hcv).1

/-- C2 witness: the grammar theorem at the concrete unit
`@r1 desc / ACGT / + / four bangs`. -/
theorem fastq_record_grammar_witness :
    (∃ r, fastqConvertToPb "@r1 desc" "ACGT" "+"
        (String.mk ['!', '!', '!', '!']) = .ok r)
    ∧ (∀ r, fastqConvertToPb "@r1 desc" "ACGT" "+"
        (String.mk ['!', '!', '!', '!']) = .ok r →
        r.sequence.data.length = r.quality.data.length
        ∧ r.sequence = "ACGT" ∧ r.quality = String.mk ['!', '!', '!', '!']
        ∧ ("@r1 desc" : String).data.head? = some '@'
        ∧ (match findSpaceIdx ("@r1 desc" : String).data with
           | none => r.id.data = ("@r1 desc" : String).data.drop 1
                     ∧ r.description = ""
           | some i => r.id.data = (("@r1 desc" : String).data.drop 1).take (i - 1)
                       ∧ r.description.data = ("@r1 desc" : String).data.drop (i + 1))) :=
  ⟨(fastq_record_grammar "@r1 desc" "ACGT" "+"
      (String.mk ['!', '!', '!', '!'])).2.1 (by decide),
   (fastq_record_grammar "@r1 desc" "ACGT" "+"
      (String.mk ['!', '!', '!', '!'])).2.2.1⟩

/-- C3 counterexample: on the truncated tail `@r1 / ACGT / +` (three
remaining lines, the final quality line missing) `next()` ends iteration
cleanly — outcome `eof`, not an error — whereas the claim requires a
`DataLoss` error at that call. -/
theorem fastq_truncated_not_error :
    fastqIterNext ["@r1", "ACGT", "+"] = (.eof, [])
    ∧ (fastqIterNext ["@r1", "ACGT", "+"]).1.isErr = false := by decide

/-- C3 (amended): a `next()` call that finds fewer than four remaining
lines — a truncated trailing record just like EOF exactly at a record
boundary — ends iteration cleanly with no error and no record, the
partial record being silently discarded. -/
theorem fastq_truncated_clean (lines : List String) (hlt : lines.length < 4) :
    fastqIterNext lines = (.eof, []) := by
  rcases lines with _ | ⟨a, _ | ⟨b, _ | ⟨c, _ | ⟨d, rest⟩⟩⟩⟩
  · rfl
  · rfl
  · rfl
  · rfl
  · exfalso
    simp only [List.length_cons] at hlt
    omega

/-- C3 witness: the amended theorem at the concrete truncated tail. -/
theorem fastq_truncated_clean_witness :
    (["@r1", "ACGT", "+"] : List String).length < 4
    ∧ fastqIterNext ["@r1", "ACGT", "+"] = (.eof, []) :=
  ⟨by decide, fastq_truncated_clean ["@r1", "ACGT", "+"] (by decide)⟩

/-- C4 counterexample: closing a FASTQ reader twice: the second `close()`
returns OK (`none`), not the `FailedPrecondition` the claim requires. -/
theorem fastq_second_close_ok :
    (fastqClose (fastqClose ⟨true, ["@r"]⟩).2).1 = none := by decide

/-- C4 (amended): after `close()`, `iterate()` returns
`FailedPrecondition` for both readers, and a second `close()` returns
`FailedPrecondition` for the BED reader; `FastqReader::Close` however
always returns OK, on open and on already-closed readers alike; and
`close()` on an open reader never returns `FailedPrecondition`. -/
theorem reader_close_lifecycle (stB : BedReaderSt) (stF : FastqReaderSt)
    (ok1 ok2 : Bool) (hB : stB.fpOpen = true) :
    (∀ e, (bedClose ok1 stB).1 = some e → e.code ≠ .failedPrecondition)
    ∧ (∃ e, (bedClose ok2 (bedClose ok1 stB).2).1 = some e
        ∧ e.code = .failedPrecondition)
    ∧ bedIterate (bedClose ok1 stB).2 =
        .error ⟨.failedPrecondition, "Cannot Iterate a closed BedReader."⟩
    ∧ (fastqClose stF).1 = none
    ∧ (fastqClose (fastqClose stF).2).1 = none
    ∧ fastqIterate (fastqClose stF).2 =
        .error ⟨.failedPrecondition, "Cannot Iterate a closed FastqReader."⟩ := by
  have h2 : (bedClose ok1 stB).2 = { stB with fpOpen := false } := by
    simp only [bedClose, if_pos hB]
    cases ok1 <;> rfl
  refine ⟨?_, ?_, ?_, rfl, rfl, rfl⟩
  · intro e he
    simp only [bedClose, if_pos hB] at he
    cases ok1 with
    | false =>
      simp only [Bool.false_eq_true, if_neg] at he
      cases he
      decide
    | true =>
      simp only [if_pos] at he
      cases he
  · rw [h2]
    exact ⟨_, rfl, rfl⟩
  · rw [h2]
    rfl

/-- C4 witness: the lifecycle theorem at concrete open readers. -/
theorem reader_close_lifecycle_witness :
    (⟨true, 3, 0, []⟩ : BedReaderSt).fpOpen = true
    ∧ ((∀ e, (bedClose true ⟨true, 3, 0, []⟩).1 = some e →
          e.code ≠ .failedPrecondition)
      ∧ (∃ e, (bedClose true (bedClose true ⟨true, 3, 0, []⟩).2).1 = some e
          ∧ e.code = .failedPrecondition)
      ∧ bedIterate (bedClose true ⟨true, 3, 0, []⟩).2 =
          .error ⟨.failedPrecondition, "Cannot Iterate a closed BedReader."⟩
      ∧ (fastqClose ⟨true, ["@r"]⟩).1 = none
      ∧ (fastqClose (fastqClose ⟨true, ["@r"]⟩).2).1 = none
      ∧ fastqIterate (fastqClose ⟨true, ["@r"]⟩).2 =
          .error ⟨.failedPrecondition, "Cannot Iterate a closed FastqReader."⟩) :=
  ⟨rfl, reader_close_lifecycle ⟨true, 3, 0, []⟩ ⟨true, ["@r"]⟩ true true rfl⟩

/-! ### BED helper lemmas -/

/-- The `numTokensSeen` out-parameter is always the tab-split count. -/
theorem bedConvertToPb_fst (line : String) (d : Nat) :
    (bedConvertToPb line d).1 = (splitTab line).length := rfl

/-- Every `ConvertToPb` failure carries the tensorflow `Unknown` code. -/
theorem bedConvertToPb_error_code (line : String) (d : Nat) (e : Err)
    (he : (bedConvertToPb line d).2 = .error e) : e.code = .unknown := by
  simp only [bedConvertToPb] at he
  split at he
  · split at he
    · cases he; rfl
    · cases he
  · cases he; rfl

/-- A produced record presupposes a valid field count. -/
theorem bedConvertToPb_ok_valid (line : String) (d : Nat) (r : BedRecord)
    (hr : (bedConvertToPb line d).2 = .ok r) :
    validNumBedFields (splitTab line).length = true := by
  simp only [bedConvertToPb] at hr
  split at hr
  · assumption
  · cases hr

/-- Every `nextNonCommentLine` failure is bare end-of-stream. -/
theorem nextNonCommentLine_error (lines : List String) (e : Err)
    (he : nextNonCommentLine lines = .error e) : e = ⟨.outOfRange, ""⟩ := by
  induction lines with
  | nil =>
    simp only [nextNonCommentLine, Except.error.injEq] at he
    exact he.symm
  | cons a as ih =>
    simp only [nextNonCommentLine] at he
    by_cases ha : startsWithHash a = true
    · rw [if_pos ha] at he
      exact ih he
    · rw [if_neg ha] at he
      cases he

/-! ### C8: error kinds of BED open -/

/-- C8 counterexample: opening an empty BED file (no data line) fails
with `OutOfRange`, which is neither `NotFound` nor `InvalidArgument`. -/
theorem bed_open_empty_not_claimed_kind :
    bedFromFile true [] 0 = .error ⟨.outOfRange, ""⟩
    ∧ ErrCode.outOfRange ≠ ErrCode.notFound
    ∧ ErrCode.outOfRange ≠ ErrCode.invalidArgument := by decide

/-- C8 (amended): BED open either returns a reader or fails with
`NotFound` (path cannot be opened), `InvalidArgument` (nonzero
`options.num_fields` exceeding the detected width or outside
{3,4,5,6,8,9,12}), or `OutOfRange` (the file holds no non-comment line);
a low-level htslib read failure would additionally surface as `DataLoss`,
a path outside the line-content model. -/
theorem bed_open_error_kinds (openable : Bool) (lines : List String) (opt : Nat) :
    (∃ st, bedFromFile openable lines opt = .ok st)
    ∨ (∃ e, bedFromFile openable lines opt = .error e
        ∧ (e.code = .notFound ∨ e.code = .invalidArgument
            ∨ e.code = .outOfRange)) := by
  cases openable with
  | false =>
    right
    exact ⟨⟨.notFound, "Could not open"⟩, rfl, Or.inl rfl⟩
  | true =>
    cases hnf : getNumFields true lines with
    | error e =>
      have hred : bedFromFile true lines opt = .error e := by
        unfold bedFromFile
        rw [hnf]
      right
      refine ⟨e, hred, Or.inr (Or.inr ?_)⟩
      unfold getNumFields at hnf
      rw [if_pos rfl] at hnf
      cases hncl : nextNonCommentLine lines with
      | error e' =>
        rw [hncl] at hnf
        cases hnf
        rw [nextNonCommentLine_error lines _ hncl]
      | ok v =>
        rw [hncl] at hnf
        cases hnf
    | ok nf =>
      have hred : bedFromFile true lines opt =
          (if opt ≠ 0 ∧ (opt > nf ∨ ¬ validNumBedFields opt = true) then
            .error ⟨.invalidArgument, "Invalid requested number of fields to parse"⟩
          else .ok ⟨true, nf, opt, lines⟩) := by
        unfold bedFromFile
        rw [hnf]
        rfl
      by_cases hopt : opt ≠ 0 ∧ (opt > nf ∨ ¬ validNumBedFields opt = true)
      · right
        rw [hred, if_pos hopt]
        exact ⟨_, rfl, Or.inr (Or.inl rfl)⟩
      · left
        rw [hred, if_neg hopt]
        exact ⟨_, rfl⟩

/-! ### C1: field-count policy of the per-record parser -/

/-- C1 counterexample: a two-token line makes `next()` return an error
with code `Unknown` ("BED record has invalid number of fields"), not the
`DataLoss` the claim names. -/
theorem bed_field_count_not_dataloss :
    (bedNext 3 0 ["a\tb"]).1 =
      .err ⟨.unknown, "BED record has invalid number of fields"⟩
    ∧ ErrCode.unknown ≠ ErrCode.dataLoss := by decide

/-- C1 (amended): a tab-split token count outside {3,4,5,6,8,9,12}, or a
valid count differing from the file's `num_fields`, makes `next()` return
an error of kind `Unknown` (not `DataLoss`); a record is produced only
when the token count is valid and equals the file's `num_fields`. -/
theorem bed_field_count_policy (header opt : Nat) (line : String)
    (rest : List String) (hnc : startsWithHash line = false) :
    (¬ (validNumBedFields (splitTab line).length = true
          ∧ (splitTab line).length = header) →
      ∃ e, (bedNext header opt (line :: rest)).1 = .err e ∧ e.code = .unknown)
    ∧ (∀ r st, bedNext header opt (line :: rest) = (.ok r, st) →
      validNumBedFields (splitTab line).length = true
      ∧ (splitTab line).length = header) := by
  have hstep : nextNonCommentLine (line :: rest) = .ok (line, rest) := by
    simp [nextNonCommentLine, hnc]
  constructor
  · intro hbad
    simp only [bedNext, hstep]
    cases hcv : (bedConvertToPb line opt).2 with
    | error e =>
      exact ⟨e, rfl, bedConvertToPb_error_code line opt e hcv⟩
    | ok r =>
      have hval := bedConvertToPb_ok_valid line opt r hcv
      have hne : (splitTab line).length ≠ header := fun heq => hbad ⟨hval, heq⟩
      have hvd : bedValidate header (bedConvertToPb line opt).1 =
          some ⟨.unknown, "Invalid BED with varying number of fields in file"⟩ := by
        rw [bedConvertToPb_fst]
        exact if_pos (Ne.symm hne)
      rw [hvd]
      exact ⟨_, rfl, rfl⟩
  · intro r st hr
    simp only [bedNext, hstep] at hr
    cases hcv : (bedConvertToPb line opt).2 with
    | error e =>
      rw [hcv] at hr
      cases hr
    | ok r' =>
      rw [hcv] at hr
      refine ⟨bedConvertToPb_ok_valid line opt r' hcv, ?_⟩
      by_cases hh : (splitTab line).length = header
      · exact hh
      · have hvd : bedValidate header (bedConvertToPb line opt).1 =
            some ⟨.unknown, "Invalid BED with varying number of fields in file"⟩ := by
          rw [bedConvertToPb_fst]
          exact if_pos (Ne.symm hh)
        rw [hvd] at hr
        cases hr

/-- C1 witness: four valid tokens against a three-field header yield an
`Unknown` error from `next()`. -/
theorem bed_field_count_policy_witness :
    startsWithHash "a\tb\tc\td" = false
    ∧ ¬ (validNumBedFields (splitTab "a\tb\tc\td").length = true
          ∧ (splitTab "a\tb\tc\td").length = 3)
    ∧ ∃ e, (bedNext 3 0 ["a\tb\tc\td"]).1 = .err e ∧ e.code = .unknown :=
  ⟨by decide, by decide,
    (bed_field_count_policy 3 0 "a\tb\tc\td" [] (by decide)).1 (by decide)⟩

/-- Closed form of the record produced by `ConvertToPb` when the field
count is valid and the strand check does not fire. -/
theorem bedConvertToPb_ok_eq (line : String) (d : Nat)
    (hv : validNumBedFields (splitTab line).length = true)
    (hns : ¬ (bedNumFields d (splitTab line).length > 5
        ∧ ¬ bedStrandOk ((splitTab line).getD 5 "") = true)) :
    (bedConvertToPb line d).2 =
      .ok { reference_name := (splitTab line).getD 0 ""
            start := strto64OrZero ((splitTab line).getD 1 "")
            end_ := strto64OrZero ((splitTab line).getD 2 "")
            name := if bedNumFields d (splitTab line).length > 3 then
                (splitTab line).getD 3 "" else ""
            score := if bedNumFields d (splitTab line).length > 4 then
                strtodOrZero ((splitTab line).getD 4 "") else 0
            strand := if bedNumFields d (splitTab line).length > 5 then
                bedStrandOf ((splitTab line).getD 5 "") else .NO_STRAND
            thick_start := if bedNumFields d (splitTab line).length > 7 then
                strto64OrZero ((splitTab line).getD 6 "") else 0
            thick_end := if bedNumFields d (splitTab line).length > 7 then
                strto64OrZero ((splitTab line).getD 7 "") else 0
            item_rgb := if bedNumFields d (splitTab line).length > 8 then
                (splitTab line).getD 8 "" else ""
            block_count := if bedNumFields d (splitTab line).length ≥ 12 then
                strto32OrZero ((splitTab line).getD 9 "") else 0
            block_sizes := if bedNumFields d (splitTab line).length ≥ 12 then
                (splitTab line).getD 10 "" else ""
            block_starts := if bedNumFields d (splitTab line).length ≥ 12 then
                (splitTab line).getD 11 "" else "" } := by
  simp only [bedConvertToPb]
  rw [if_pos hv, if_neg hns]

/-- `ConvertToPb` fails on a strand glyph outside the literal set when
the strand field is within the parsed width. -/
theorem bedConvertToPb_strand_error (line : String) (d : Nat)
    (hv : validNumBedFields (splitTab line).length = true)
    (h5 : bedNumFields d (splitTab line).length > 5)
    (hbad : bedStrandOk ((splitTab line).getD 5 "") = false) :
    (bedConvertToPb line d).2 =
      .error ⟨.unknown, "Invalid BED record with unknown strand"⟩ := by
  simp only [bedConvertToPb]
  rw [if_pos hv, if_pos ⟨h5, fun hq => by rw [hq] at hbad; cases hbad⟩]

/-! ### C5: strand literal totality -/

/-- C5 counterexample: the strand glyph `x` in a six-field line makes
`next()` return an error with code `Unknown`, not the claimed
`DataLoss`. -/
theorem bed_strand_not_dataloss :
    (bedNext 6 0 ["a\tb\tc\td\te\tx"]).1 =
      .err ⟨.unknown, "Invalid BED record with unknown strand"⟩
    ∧ ErrCode.unknown ≠ ErrCode.dataLoss := by decide

/-- C5 (amended): with at least six parsed fields, the strand field
parses exactly the three literals `+`/`-`/`.` to
FORWARD_STRAND/REVERSE_STRAND/NO_STRAND; any other glyph makes `next()`
return an error of kind `Unknown` (not `DataLoss`); no record carries a
strand outside the three-valued enum. -/
theorem bed_strand_literals (line : String) (rest : List String) (header : Nat)
    (hc : startsWithHash line = false)
    (hh : (splitTab line).length = header)
    (hv : validNumBedFields (splitTab line).length = true)
    (h6 : 6 ≤ (splitTab line).length) :
    ((splitTab line).getD 5 "" = "+" →
      ∃ r, (bedNext header 0 (line :: rest)).1 = .ok r
        ∧ r.strand = .FORWARD_STRAND)
    ∧ ((splitTab line).getD 5 "" = "-" →
      ∃ r, (bedNext header 0 (line :: rest)).1 = .ok r
        ∧ r.strand = .REVERSE_STRAND)
    ∧ ((splitTab line).getD 5 "" = "." →
      ∃ r, (bedNext header 0 (line :: rest)).1 = .ok r
        ∧ r.strand = .NO_STRAND)
    ∧ (bedStrandOk ((splitTab line).getD 5 "") = false →
      (bedNext header 0 (line :: rest)).1 =
        .err ⟨.unknown, "Invalid BED record with unknown strand"⟩)
    ∧ (∀ r st, bedNext header 0 (line :: rest) = (.ok r, st) →
      r.strand = .FORWARD_STRAND ∨ r.strand = .REVERSE_STRAND
        ∨ r.strand = .NO_STRAND) := by
  have hstep : nextNonCommentLine (line :: rest) = .ok (line, rest) := by
    simp [nextNonCommentLine, hc]
  have hn5 : bedNumFields 0 (splitTab line).length > 5 := by
    simpa [bedNumFields] using h6
  have hval : bedValidate header (bedConvertToPb line 0).1 = none := by
    rw [bedConvertToPb_fst]
    simp [bedValidate, hh]
  have hlit : ∀ t : String, (splitTab line).getD 5 "" = t →
      bedStrandOk t = true →
      ∃ r, (bedNext header 0 (line :: rest)).1 = .ok r
        ∧ r.strand = bedStrandOf t := by
    intro t ht hok
    have hns : ¬ (bedNumFields 0 (splitTab line).length > 5
        ∧ ¬ bedStrandOk ((splitTab line).getD 5 "") = true) := by
      rw [ht]
      intro hcon
      exact hcon.2 hok
    rcases hE : (bedConvertToPb line 0).2 with e | R
    · rw [bedConvertToPb_ok_eq line 0 hv hns] at hE
      cases hE
    · refine ⟨R, ?_, ?_⟩
      · simp only [bedNext, hstep, hE, hval]
      · have hR := hE.symm.trans (bedConvertToPb_ok_eq line 0 hv hns)
        cases hR
        simp only [if_pos hn5, ht]
  refine ⟨?_, ?_, ?_, ?_, ?_⟩
  · intro ht
    simpa [bedStrandOf] using hlit "+" ht (by decide)
  · intro ht
    simpa [bedStrandOf] using hlit "-" ht (by decide)
  · intro ht
    simpa [bedStrandOf] using hlit "." ht (by decide)
  · intro hbad
    have hcv := bedConvertToPb_strand_error line 0 hv hn5 hbad
    simp only [bedNext, hstep, hcv]
  · intro r st hr
    cases hq : r.strand
    · exact Or.inr (Or.inr rfl)
    · exact Or.inl rfl
    · exact Or.inr (Or.inl rfl)

/-- C5 witness: the literal mapping at a concrete six-field line with
strand `+` (score token unparsable, recorded as zero). -/
theorem bed_strand_literals_witness :
    startsWithHash "a\tb\tc\td\tzz\t+" = false
    ∧ (splitTab "a\tb\tc\td\tzz\t+").length = 6
    ∧ validNumBedFields (splitTab "a\tb\tc\td\tzz\t+").length = true
    ∧ 6 ≤ (splitTab "a\tb\tc\td\tzz\t+").length
    ∧ (splitTab "a\tb\tc\td\tzz\t+").getD 5 "" = "+"
    ∧ ∃ r, (bedNext 6 0 ["a\tb\tc\td\tzz\t+"]).1 = .ok r
        ∧ r.strand = .FORWARD_STRAND :=
  ⟨by decide, by decide, by decide, by decide, by decide,
    (bed_strand_literals "a\tb\tc\td\tzz\t+" [] 6 (by decide) (by decide)
      (by decide) (by decide)).1 (by decide)⟩

/-! ### C6: permissive numeric parsing -/

/-- C6: when a numeric token (start, end, score, thick_start, thick_end,
block_count) fails to parse, the corresponding field is recorded as zero
and the record is still produced — numeric parsing never rejects a
line. -/
theorem bed_numeric_permissive (line : String) (d : Nat)
    (hv : validNumBedFields (splitTab line).length = true)
    (hs : bedNumFields d (splitTab line).length > 5 →
      bedStrandOk ((splitTab line).getD 5 "") = true) :
    ∃ r, (bedConvertToPb line d).2 = .ok r
      ∧ (safe_strto64 ((splitTab line).getD 1 "") = none → r.start = 0)
      ∧ (safe_strto64 ((splitTab line).getD 2 "") = none → r.end_ = 0)
      ∧ (safe_strtod ((splitTab line).getD 4 "") = none → r.score = 0)
      ∧ (safe_strto64 ((splitTab line).getD 6 "") = none → r.thick_start = 0)
      ∧ (safe_strto64 ((splitTab line).getD 7 "") = none → r.thick_end = 0)
      ∧ (safe_strto32 ((splitTab line).getD 9 "") = none → r.block_count = 0) := by
  have hns : ¬ (bedNumFields d (splitTab line).length > 5
      ∧ ¬ bedStrandOk ((splitTab line).getD 5 "") = true) :=
    fun hcon => hcon.2 (hs hcon.1)
  refine ⟨_, bedConvertToPb_ok_eq line d hv hns, ?_, ?_, ?_, ?_, ?_, ?_⟩
  · intro hp
    simp only [strto64OrZero, hp, Option.getD_none]
  · intro hp
    simp only [strto64OrZero, hp, Option.getD_none]
  · intro hp
    simp only [strtodOrZero, hp, Option.getD_none, ite_self]
  · intro hp
    simp only [strto64OrZero, hp, Option.getD_none, ite_self]
  · intro hp
    simp only [strto64OrZero, hp, Option.getD_none, ite_self]
  · intro hp
    simp only [strto32OrZero, hp, Option.getD_none, ite_self]

/-- C6 witness: a three-field line whose start/end tokens are
unparsable; both coordinates are recorded as zero and the record is
produced. -/
theorem bed_numeric_permissive_witness :
    validNumBedFields (splitTab "chr\tx\ty").length = true
    ∧ (bedNumFields 0 (splitTab "chr\tx\ty").length > 5 →
        bedStrandOk ((splitTab "chr\tx\ty").getD 5 "") = true)
    ∧ ∃ r, (bedConvertToPb "chr\tx\ty" 0).2 = .ok r
        ∧ (safe_strto64 ((splitTab "chr\tx\ty").getD 1 "") = none → r.start = 0)
        ∧ (safe_strto64 ((splitTab "chr\tx\ty").getD 2 "") = none → r.end_ = 0)
        ∧ (safe_strtod ((splitTab "chr\tx\ty").getD 4 "") = none → r.score = 0)
        ∧ (safe_strto64 ((splitTab "chr\tx\ty").getD 6 "") = none →
            r.thick_start = 0)
        ∧ (safe_strto64 ((splitTab "chr\tx\ty").getD 7 "") = none →
            r.thick_end = 0)
        ∧ (safe_strto32 ((splitTab "chr\tx\ty").getD 9 "") = none →
            r.block_count = 0) :=
  ⟨by decide, by decide,
    bed_numeric_permissive "chr\tx\ty" 0 (by decide) (by decide)⟩

/-! ### C7: narrowing projection via options.num_fields -/

/-- C7: with a nonzero `options.num_fields` not exceeding the line's
token count, a produced record populates only the first
`options.num_fields` fields — later fields keep their cleared proto
values — while reference_name, start and end always come from the
line. -/
theorem bed_narrowing_projection (line : String) (d n : Nat) (r : BedRecord)
    (hd : d ≠ 0) (hdn : d ≤ (splitTab line).length)
    (hok : bedConvertToPb line d = (n, .ok r)) :
    r.reference_name = (splitTab line).getD 0 ""
    ∧ r.start = strto64OrZero ((splitTab line).getD 1 "")
    ∧ r.end_ = strto64OrZero ((splitTab line).getD 2 "")
    ∧ (3 < d → r.name = (splitTab line).getD 3 "")
    ∧ (d ≤ 3 → r.name = "")
    ∧ (d ≤ 4 → r.score = 0)
    ∧ (d ≤ 5 → r.strand = .NO_STRAND)
    ∧ (d ≤ 7 → r.thick_start = 0 ∧ r.thick_end = 0)
    ∧ (d ≤ 8 → r.item_rgb = "")
    ∧ (d < 12 → r.block_count = 0 ∧ r.block_sizes = "" ∧ r.block_starts = "") := by
  have h2 : (bedConvertToPb line d).2 = .ok r := by rw [hok]
  have hv := bedConvertToPb_ok_valid line d r h2
  have hnf : bedNumFields d (splitTab line).length = d := by
    unfold bedNumFields
    rw [if_neg hd]
    exact Nat.min_eq_right hdn
  have hns : ¬ (bedNumFields d (splitTab line).length > 5
      ∧ ¬ bedStrandOk ((splitTab line).getD 5 "") = true) := by
    intro hcon
    cases hq : bedStrandOk ((splitTab line).getD 5 "") with
    | true => exact hcon.2 hq
    | false =>
      have hse := bedConvertToPb_strand_error line d hv hcon.1 hq
      rw [hse] at h2
      cases h2
  rw [bedConvertToPb_ok_eq line d hv hns] at h2
  cases h2
  refine ⟨rfl, rfl, rfl, ?_, ?_, ?_, ?_, ?_, ?_, ?_⟩
  · intro hgt
    simp only [hnf]
    rw [if_pos hgt]
  · intro hle
    simp only [hnf]
    rw [if_neg (by omega)]
  · intro hle
    simp only [hnf]
    rw [if_neg (by omega)]
  · intro hle
    simp only [hnf]
    rw [if_neg (by omega)]
  · intro hle
    simp only [hnf]
    rw [if_neg (by omega), if_neg (by omega)]
    exact ⟨rfl, rfl⟩
  · intro hle
    simp only [hnf]
    rw [if_neg (by omega)]
  · intro hlt
    simp only [hnf]
    rw [if_neg (by omega), if_neg (by omega), if_neg (by omega)]
    exact ⟨rfl, rfl, rfl⟩

/-- C7 witness: `options.num_fields = 3` on a six-field line populates
only reference_name/start/end. -/
theorem bed_narrowing_projection_witness :
    (3 : Nat) ≠ 0
    ∧ 3 ≤ (splitTab "chr1\t10\t20\tr1\t0\t+").length
    ∧ bedConvertToPb "chr1\t10\t20\tr1\t0\t+" 3 =
        (6, .ok { reference_name := "chr1", start := 10, end_ := 20 })
    ∧ (({ reference_name := "chr1", start := 10, end_ := 20 } : BedRecord).name = ""
      ∧ ({ reference_name := "chr1", start := 10, end_ := 20 } : BedRecord).score = 0
      ∧ ({ reference_name := "chr1", start := 10, end_ := 20 } : BedRecord).strand
          = .NO_STRAND) :=
  ⟨by decide, by decide, by decide,
    ⟨(bed_narrowing_projection "chr1\t10\t20\tr1\t0\t+" 3 6
        { reference_name := "chr1", start := 10, end_ := 20 }
        (by decide) (by decide) (by decide)).2.2.2.2.1 (by decide),
     (bed_narrowing_projection "chr1\t10\t20\tr1\t0\t+" 3 6
        { reference_name := "chr1", start := 10, end_ := 20 }
        (by decide) (by decide) (by decide)).2.2.2.2.2.1 (by decide),
     (bed_narrowing_projection "chr1\t10\t20\tr1\t0\t+" 3 6
        { reference_name := "chr1", start := 10, end_ := 20 }
        (by decide) (by decide) (by decide)).2.2.2.2.2.2.1 (by decide)⟩⟩

/-! ### C9: comment transparency -/

/-- Skipping comments consumes at least the line it returns. -/
theorem nncl_shrinks (lines : List String) :
    ∀ l rest, nextNonCommentLine lines = .ok (l, rest) →
      rest.length < lines.length := by
  induction lines with
  | nil =>
    intro l rest h
    simp [nextNonCommentLine] at h
  | cons a as ih =>
    intro l rest h
    simp only [nextNonCommentLine] at h
    by_cases ha : startsWithHash a = true
    · rw [if_pos ha] at h
      exact Nat.lt_trans (ih l rest h) (Nat.lt_succ_self _)
    · rw [if_neg ha] at h
      cases h
      exact Nat.lt_succ_self _

/-- `NextNonCommentLine` sees through comment filtering: it returns the
same line, and the remaining stream is the filtered remainder. -/
theorem nncl_filter (lines : List String) :
    nextNonCommentLine (lines.filter notComment) =
      (match nextNonCommentLine lines with
       | .error e => .error e
       | .ok (l, rest) => .ok (l, rest.filter notComment)) := by
  induction lines with
  | nil => rfl
  | cons a as ih =>
    by_cases ha : startsWithHash a = true
    · have hfa : notComment a = false := by simp [notComment, ha]
      simp only [List.filter_cons, hfa, Bool.false_eq_true, if_false,
        nextNonCommentLine, ha, if_true, ih]
    · have hfa : notComment a = true := by simp [notComment, ha]
      simp only [List.filter_cons, hfa, if_true, nextNonCommentLine, ha,
        Bool.false_eq_true, if_false]

/-- One `next()` step commutes with comment filtering. -/
theorem bedNext_filter (hd opt : Nat) (lines : List String) :
    bedNext hd opt (lines.filter notComment) =
      ((bedNext hd opt lines).1, (bedNext hd opt lines).2.filter notComment) := by
  unfold bedNext
  rw [nncl_filter]
  cases hnc : nextNonCommentLine lines with
  | error e =>
    by_cases he : e.code = .outOfRange <;> simp [he]
  | ok v =>
    obtain ⟨l, rest⟩ := v
    cases hcv : (bedConvertToPb l opt).2 with
    | error e2 => simp [hcv]
    | ok r =>
      cases hvd : bedValidate hd (bedConvertToPb l opt).1 with
      | some e3 => simp [hcv, hvd]
      | none => simp [hcv, hvd]

/-- A productive `next()` strictly shrinks the stream. -/
theorem bedNext_ok_shrinks (hd opt : Nat) (lines : List String) (r : BedRecord)
    (rest : List String) (h : bedNext hd opt lines = (.ok r, rest)) :
    rest.length < lines.length := by
  unfold bedNext at h
  split at h
  · split at h <;> simp at h
  · rename_i l rest0 heq
    split at h
    · simp at h
    · split at h
      · simp at h
      · simp only [Prod.mk.injEq] at h
        rw [← h.2]
        exact nncl_shrinks lines l rest0 heq

/-- With enough fuel the run is fuel-independent. -/
theorem bedRunFuel_congr (hd opt : Nat) :
    ∀ f g lines, lines.length < f → lines.length < g →
      bedRunFuel hd opt f lines = bedRunFuel hd opt g lines := by
  intro f
  induction f with
  | zero =>
    intro g lines hf hg
    exact absurd hf (Nat.not_lt_zero _)
  | succ f ih =>
    intro g lines hf hg
    cases g with
    | zero => exact absurd hg (Nat.not_lt_zero _)
    | succ g =>
      simp only [bedRunFuel]
      cases hb : bedNext hd opt lines with
      | mk out rest =>
        cases out with
        | ok r =>
          have hr := bedNext_ok_shrinks hd opt lines r rest hb
          simp only [bedRunFuel, hb]
          rw [ih g rest (by omega) (by omega)]
        | eof => simp only [bedRunFuel, hb]
        | err e => simp only [bedRunFuel, hb]

/-- The whole fueled run is invariant under comment filtering. -/
theorem bedRunFuel_filter (hd opt : Nat) :
    ∀ f lines, lines.length < f →
      bedRunFuel hd opt f (lines.filter notComment) = bedRunFuel hd opt f lines := by
  intro f
  induction f with
  | zero =>
    intro lines h
    exact absurd h (Nat.not_lt_zero _)
  | succ f ih =>
    intro lines hlt
    simp only [bedRunFuel]
    rw [bedNext_filter]
    cases hb : bedNext hd opt lines with
    | mk out rest =>
      cases out with
      | ok r =>
        have hr := bedNext_ok_shrinks hd opt lines r rest hb
        simp only [hb]
        rw [ih rest (by omega)]
      | eof => simp only [hb]
      | err e => simp only [hb]

/-- `bedRun` is invariant under comment filtering. -/
theorem bedRun_filter (hd opt : Nat) (lines : List String) :
    bedRun hd opt (lines.filter notComment) = bedRun hd opt lines := by
  unfold bedRun
  have hle : (lines.filter notComment).length ≤ lines.length :=
    List.length_filter_le _ _
  rw [bedRunFuel_congr hd opt ((lines.filter notComment).length + 1)
      (lines.length + 1) (lines.filter notComment) (by omega) (by omega)]
  exact bedRunFuel_filter hd opt (lines.length + 1) lines (by omega)

/-- Header discovery at open sees through comment filtering. -/
theorem getNumFields_filter (openable : Bool) (lines : List String) :
    getNumFields openable (lines.filter notComment) =
      getNumFields openable lines := by
  unfold getNumFields
  cases openable with
  | false => rfl
  | true =>
    rw [if_pos rfl, if_pos rfl, nncl_filter]
    cases nextNonCommentLine lines with
    | error e => rfl
    | ok v =>
      obtain ⟨l, rest⟩ := v
      rfl

/-- Opening and fully iterating a BED file is invariant under comment
filtering, header discovery included. -/
theorem bedOpenAndRun_filter (openable : Bool) (opt : Nat) (lines : List String) :
    bedOpenAndRun openable opt (lines.filter notComment) =
      bedOpenAndRun openable opt lines := by
  cases hnf : getNumFields openable lines with
  | error e =>
    have h1 : bedFromFile openable lines opt = .error e := by
      unfold bedFromFile
      rw [hnf]
    have h2 : bedFromFile openable (lines.filter notComment) opt = .error e := by
      unfold bedFromFile
      rw [getNumFields_filter, hnf]
    unfold bedOpenAndRun
    rw [h1, h2]
  | ok nf =>
    by_cases hopt : opt ≠ 0 ∧ (opt > nf ∨ ¬ validNumBedFields opt = true)
    · have h1 : bedFromFile openable lines opt =
          .error ⟨.invalidArgument, "Invalid requested number of fields to parse"⟩ := by
        unfold bedFromFile
        simp only [hnf]
        rw [if_pos hopt]
      have h2 : bedFromFile openable (lines.filter notComment) opt =
          .error ⟨.invalidArgument, "Invalid requested number of fields to parse"⟩ := by
        unfold bedFromFile
        rw [getNumFields_filter]
        simp only [hnf]
        rw [if_pos hopt]
      unfold bedOpenAndRun
      rw [h1, h2]
    · cases openable with
      | false =>
        unfold getNumFields at hnf
        simp at hnf
      | true =>
        have h1 : bedFromFile true lines opt = .ok ⟨true, nf, opt, lines⟩ := by
          unfold bedFromFile
          simp only [hnf]
          rw [if_neg hopt]
          exact if_pos trivial
        have h2 : bedFromFile true (lines.filter notComment) opt =
            .ok ⟨true, nf, opt, lines.filter notComment⟩ := by
          unfold bedFromFile
          rw [getNumFields_filter]
          simp only [hnf]
          rw [if_neg hopt]
          exact if_pos trivial
        unfold bedOpenAndRun
        rw [h1, h2]
        exact congrArg Except.ok (bedRun_filter nf opt lines)

/-- C9: two BED files whose non-comment lines agree — in particular a
file and the same file with `#…` comment lines inserted anywhere —
produce the identical per-call outcome sequence from open plus
`iterate()`, including `num_fields` discovery at open. -/
theorem bed_comment_transparency (openable : Bool) (opt : Nat)
    (ls ls' : List String)
    (hf : ls.filter notComment = ls'.filter notComment) :
    bedOpenAndRun openable opt ls = bedOpenAndRun openable opt ls' := by
  rw [← bedOpenAndRun_filter openable opt ls, hf, bedOpenAndRun_filter]

/-- C9 witness: inserting two comment lines around a data line leaves
the record stream unchanged. -/
theorem bed_comment_transparency_witness :
    (["chr1\t10\t20"] : List String).filter notComment =
      (["#c", "chr1\t10\t20", "#d"] : List String).filter notComment
    ∧ bedOpenAndRun true 0 ["chr1\t10\t20"] =
        bedOpenAndRun true 0 ["#c", "chr1\t10\t20", "#d"] :=
  ⟨by decide, bed_comment_transparency true 0 _ _ (by decide)⟩

end Nucleus
